import Mathlib

/-!
Verification of the `metrics` workspace (metrics-core + metrics-recorder-prometheus)
against its specification.  The Rust sources are shallowly embedded below:
pure functions become Lean functions, the recorder's mutable state becomes
explicit state passing on a `PrometheusRecorder` structure, `u64`/`i64`
become `Nat`/`Int` with an explicit `% 2^64` where unsigned overflow matters,
and the fallible clock becomes an `Except Unit Nat` parameter.

The `HashMap<Key, (u64, Histogram<u64>)>` of the renderer is modelled as an
insertion-ordered association list (the claims under study do not depend on
the hash map's iteration order).

Two pieces of code the renderer calls are not part of the given sources and
are modelled from the specification text, as marked on their doc comments:
the quantile parsing of `metrics-util` and the `hdrhistogram` sketch.
-/

set_option maxRecDepth 40000

namespace MetricsSpec

/-! ## Character/string helpers used by the embedding -/

/-- Splitting a character list at every occurrence of `c`; the embedding of
reading an output buffer back as lines. -/
def splitOnChar (c : Char) : List Char → List (List Char)
  | [] => [[]]
  | x :: xs =>
    match splitOnChar c xs with
    | [] => [[]]
    | r :: rs => if x = c then [] :: r :: rs else (x :: r) :: rs

/-- The lines of an output buffer, in order; a trailing newline yields a final
empty line. -/
def outputLines (s : String) : List String :=
  (splitOnChar (Char.ofNat 10) s.data).map (fun l => String.mk l)

/-- The character substitution performed by `name.replace('.', "_")` in
`key_to_parts`: a dot becomes an underscore, everything else is unchanged. -/
def escDot (c : Char) : Char := if c = '.' then '_' else c

/-- Insertion into a sorted list of naturals. -/
def insertSorted (v : Nat) : List Nat → List Nat
  | [] => [v]
  | x :: xs => if v ≤ x then v :: x :: xs else x :: insertSorted v xs

/-- Insertion sort on naturals (kernel-reducible, used by the sketch model). -/
def sortNat (l : List Nat) : List Nat := l.foldr insertSorted []

/-! ## metrics-core: `Label` and `Key` (src/metrics-core/src/lib.rs) -/

/-- A key/value pair used to further describe a metric
(`pub struct Label(ScopedString, ScopedString)`). -/
structure Label where
  key : String
  value : String
deriving DecidableEq, Repr

/-- `Label::from_parts`. -/
def Label.from_parts (k v : String) : Label := Label.mk k v

/-- Modelled from the spec: `Label::into_parts` is called by the renderer's
`key_to_parts` but is absent from src/metrics-core; per the data model a
label is exactly the ordered pair of its key and value. -/
def Label.into_parts (l : Label) : String × String := (l.key, l.value)

/-- A metric key: a name plus an optional vector of labels
(`pub struct Key { name, labels: Option<Vec<Label>> }`). -/
structure Key where
  name : String
  labels : Option (List Label)
deriving DecidableEq, Repr

/-- `Key::from_name`: a key with no labels. -/
def Key.from_name (n : String) : Key := Key.mk n none

/-- `Key::from_name_and_labels`: the label vector is stored as `Some(...)`
whatever its length. -/
def Key.from_name_and_labels (n : String) (ls : List Label) : Key :=
  Key.mk n (some ls)

/-- `Key::map_name`: maps the name through `f`, carries the labels over. -/
def Key.map_name (k : Key) (f : String → String) : Key :=
  Key.mk (f k.name) k.labels

/-- Modelled from the spec: `Key::into_parts` is called by the renderer's
`key_to_parts` but is absent from src/metrics-core; per the data model a key
is exactly its name together with its optional label sequence. -/
def Key.into_parts (k : Key) : String × Option (List Label) :=
  (k.name, k.labels)

/-- The `fmt::Display` implementation for `Key`.  Note that the no-labels
branch of the source writes `"Key({}"` — without a closing parenthesis. -/
def Key.display (k : Key) : String :=
  match k.labels with
  | none => "Key(" ++ k.name
  | some labels =>
      let kv_pairs := labels.map (fun l => l.key ++ " = " ++ l.value)
      "Key(" ++ k.name ++ ", [" ++ String.intercalate ", " kv_pairs ++ "])"

/-! ## metrics-util (not under src/): quantile parsing -/

/-- Modelled from the spec: the `Quantile` of metrics-util, absent from the
given sources.  A validated quantile value in [0, 1]; the floating-point
value is represented exactly as the rational `num / den` (every float is a
rational). -/
structure Quantile where
  num : Nat
  den : Nat
deriving DecidableEq, Repr

/-- Fractional decimal digits of `r / den` (with `0 < r < den`), stopping as
soon as the remainder is zero, so no trailing zeros are produced. -/
def fracDigits : Nat → Nat → Nat → List Char
  | 0, _, _ => []
  | fuel + 1, r, den =>
      let d := r * 10 / den
      let r2 := r * 10 % den
      Char.ofNat (48 + d) :: (if r2 = 0 then [] else fracDigits fuel r2 den)

/-- Modelled from the spec: the display string of a quantile value, a
trailing-zero-free decimal representation (1 → "1", 0.5 → "0.5",
0.999 → "0.999").  This is also what Rust's float `Display` prints for the
quantile values in range, which the renderer interpolates into the
`quantile="..."` label. -/
def Quantile.display (q : Quantile) : String :=
  let ip := q.num / q.den
  let r := q.num % q.den
  if r = 0 then toString ip
  else toString ip ++ "." ++ String.mk (fracDigits 20 r q.den)

/-- Modelled from the spec: `parse_quantiles` of metrics-util, absent from
the given sources.  Each raw value (given as an exact rational) is clamped
into [0, 1]; the output order matches the input order, with no
de-duplication. -/
def parse_quantiles (raw : List (Int × Nat)) : List Quantile :=
  raw.map (fun p =>
    let den := max p.2 1
    let num : Nat := if p.1 ≤ 0 then 0 else min p.1.toNat den
    Quantile.mk num den)

/-! ## hdrhistogram (external crate): the sketch model -/

/-- Modelled from the spec: the Histogram Sketch (the `hdrhistogram` crate,
outside this repository).  The sketch is modelled as the exact multiset of
recorded observations, kept as a list in recording order; the spec only
requires quantile answers within the sketch's error bounds, and the exact
model is the zero-error member of that family. -/
structure Histo where
  values : List Nat
deriving DecidableEq, Repr

/-- `Histogram::record`: inserts one observation (the auto-resizing `u64`
histogram of the source accepts every `u64` value). -/
def Histo.record (h : Histo) (v : Nat) : Histo := Histo.mk (h.values ++ [v])

/-- `Histogram::len`: the total count of recorded observations. -/
def Histo.len (h : Histo) : Nat := h.values.length

/-- Modelled from the spec: `value_at_quantile` returns the observation of
rank `max 1 ⌈q·n⌉` in the sorted list of observations (q = 0 the minimum,
q = 1 the maximum), and 0 when the sketch is empty. -/
def Histo.value_at_quantile (h : Histo) (q : Quantile) : Nat :=
  let n := h.values.length
  let rank := max 1 ((q.num * n + q.den - 1) / q.den)
  ((sortNat h.values).drop (rank - 1)).headD 0

/-! ## metrics-recorder-prometheus (src/metrics-recorder-prometheus/src/lib.rs) -/

/-- `key_to_parts`: escapes dots in the name to underscores and renders each
label as `k="v"`; a missing label vector becomes the empty list
(`unwrap_or_default`). -/
def key_to_parts (key : Key) : String × List String :=
  let p := key.into_parts
  let name := String.mk (p.1.data.map escDot)
  let labels := (p.2.map (fun ls =>
    ls.map (fun l =>
      let kv := l.into_parts
      kv.1 ++ "=\"" ++ kv.2 ++ "\""))).getD []
  (name, labels)

/-- `render_labeled_name`: the bare name when there are no labels, otherwise
the name followed by the comma-joined labels in braces. -/
def render_labeled_name (name : String) (labels : List String) : String :=
  if labels.isEmpty then name
  else name ++ "\x7b" ++ String.intercalate "," labels ++ "\x7d"

/-- `get_prom_expo_header`: the construction-time header line.  The clock is
passed explicitly as the `Result` of `SystemTime::now().duration_since(UNIX_EPOCH)`
mapped to whole seconds; a clock failure falls back to 0 (`unwrap_or(0)`). -/
def get_prom_expo_header (now : Except Unit Nat) : String :=
  let ts := match now with
    | Except.ok secs => secs
    | Except.error _ => 0
  "# metrics snapshot (ts=" ++ toString ts ++ ") (prometheus exposition format)"

/-- The renderer state: the configured quantiles, the histogram map (modelled
as an insertion-ordered association list) and the text buffer. -/
structure PrometheusRecorder where
  quantiles : List Quantile
  histos : List (Key × Nat × Histo)
  output : String
deriving DecidableEq, Repr

/-- Association-list lookup for the histogram map. -/
def lookupEntry (l : List (Key × Nat × Histo)) (k : Key) : Option (Nat × Histo) :=
  match l with
  | [] => none
  | (k2, e) :: rest => if k2 = k then some e else lookupEntry rest k

/-- Association-list update for the histogram map: replaces in place, or
appends a fresh binding at the end. -/
def updateEntry (l : List (Key × Nat × Histo)) (k : Key) (v : Nat × Histo) :
    List (Key × Nat × Histo) :=
  match l with
  | [] => [(k, v)]
  | (k2, e) :: rest =>
      if k2 = k then (k, v) :: rest else (k2, e) :: updateEntry rest k v

/-- `PrometheusRecorder::with_quantiles`. -/
def PrometheusRecorder.with_quantiles (raw : List (Int × Nat))
    (now : Except Unit Nat) : PrometheusRecorder :=
  PrometheusRecorder.mk (parse_quantiles raw) [] (get_prom_expo_header now)

/-- The default quantile set of `PrometheusRecorder::new`:
0.0, 0.5, 0.9, 0.95, 0.99, 0.999 and 1.0, as exact rationals. -/
def default_quantiles : List (Int × Nat) :=
  [(0, 1), (1, 2), (9, 10), (95, 100), (99, 100), (999, 1000), (1, 1)]

/-- `PrometheusRecorder::new`. -/
def PrometheusRecorder.new (now : Except Unit Nat) : PrometheusRecorder :=
  PrometheusRecorder.with_quantiles default_quantiles now

/-- `Recorder::record_counter` for `PrometheusRecorder`: immediately appends
a TYPE declaration line and a sample line to the text buffer. -/
def PrometheusRecorder.record_counter (r : PrometheusRecorder) (key : Key)
    (value : Nat) : PrometheusRecorder :=
  let p := key_to_parts key
  let full_name := render_labeled_name p.1 p.2
  PrometheusRecorder.mk r.quantiles r.histos
    (r.output ++ "\n# TYPE " ++ p.1 ++ " counter\n"
      ++ full_name ++ " " ++ toString value ++ "\n")

/-- `Recorder::record_gauge` for `PrometheusRecorder`: like `record_counter`
but with a signed value and a `gauge` TYPE. -/
def PrometheusRecorder.record_gauge (r : PrometheusRecorder) (key : Key)
    (value : Int) : PrometheusRecorder :=
  let p := key_to_parts key
  let full_name := render_labeled_name p.1 p.2
  PrometheusRecorder.mk r.quantiles r.histos
    (r.output ++ "\n# TYPE " ++ p.1 ++ " gauge\n"
      ++ full_name ++ " " ++ toString value ++ "\n")

/-- `Recorder::record_histogram` for `PrometheusRecorder`: looks up (or
lazily creates, with running sum 0 and an empty sketch) the entry for the
key, then records every value into the sketch and adds it to the running
`u64` sum (modelled as `Nat` with an explicit `% 2^64`). -/
def PrometheusRecorder.record_histogram (r : PrometheusRecorder) (key : Key)
    (values : List Nat) : PrometheusRecorder :=
  PrometheusRecorder.mk r.quantiles
    (updateEntry r.histos key
      (values.foldl (fun acc v => (acc + v) % 2 ^ 64)
          ((lookupEntry r.histos key).getD (0, Histo.mk [])).1,
        Histo.mk (((lookupEntry r.histos key).getD (0, Histo.mk [])).2.values
          ++ values)))
    r.output

/-- The two lines `record_counter` appends for one call: the TYPE
declaration and the sample line. -/
def counterBlock (key : Key) (value : Nat) : String :=
  "\n# TYPE " ++ (key_to_parts key).1 ++ " counter\n"
    ++ render_labeled_name (key_to_parts key).1 (key_to_parts key).2
    ++ " " ++ toString value ++ "\n"

/-- The two lines `record_gauge` appends for one call. -/
def gaugeBlock (key : Key) (value : Int) : String :=
  "\n# TYPE " ++ (key_to_parts key).1 ++ " gauge\n"
    ++ render_labeled_name (key_to_parts key).1 (key_to_parts key).2
    ++ " " ++ toString value ++ "\n"

/-- One quantile line of a summary block: the key's labels with the quantile
label appended last, then the value at that quantile. -/
def quantLine (name : String) (labels : List String) (hist : Histo)
    (q : Quantile) : String :=
  render_labeled_name name (labels ++ ["quantile=\"" ++ q.display ++ "\""])
    ++ " " ++ toString (hist.value_at_quantile q) ++ "\n"

/-- The text emitted for one histogram entry at finalization: the TYPE line,
one line per configured quantile, then the `_sum` and `_count` lines. -/
def renderHistoEntry (quantiles : List Quantile) (e : Key × Nat × Histo) :
    String :=
  let p := key_to_parts e.1
  "\n# TYPE " ++ p.1 ++ " summary\n"
    ++ quantiles.foldl (fun out q => out ++ quantLine p.1 p.2 e.2.2 q) ""
    ++ render_labeled_name (p.1 ++ "_sum") p.2 ++ " " ++ toString e.2.1 ++ "\n"
    ++ render_labeled_name (p.1 ++ "_count") p.2 ++ " "
    ++ toString e.2.2.len ++ "\n"

/-- The consuming `Into<String>` finalization: the accumulated text buffer
followed by one summary block per histogram entry. -/
def PrometheusRecorder.into_string (r : PrometheusRecorder) : String :=
  r.histos.foldl (fun out e => out ++ renderHistoEntry r.quantiles e) r.output

/-! ## General lemmas about the embedding -/

/-- Appending through a string fold only extends the accumulator. -/
theorem foldl_str_extend {α : Type} (f : α → String) :
    ∀ (l : List α) (A : String),
      ∃ s, l.foldl (fun o x => o ++ f x) A = A ++ s
  | [], A => ⟨"", by simp⟩
  | x :: l, A => by
      obtain ⟨s, hs⟩ := foldl_str_extend f l (A ++ f x)
      exact ⟨f x ++ s, by simp [List.foldl, hs, String.append_assoc]⟩

/-- Every element fed to a string fold appears contiguously in the result. -/
theorem foldl_str_split {α : Type} (f : α → String) :
    ∀ (l : List α) (A : String) (e : α), e ∈ l →
      ∃ pre post, l.foldl (fun o x => o ++ f x) A = pre ++ f e ++ post
  | [], _, e, he => absurd he (List.not_mem_nil e)
  | x :: l, A, e, he => by
      rcases List.mem_cons.1 he with h | h
      · obtain ⟨s, hs⟩ := foldl_str_extend f l (A ++ f x)
        exact ⟨A, s, by simp [List.foldl, hs, h]⟩
      · obtain ⟨pre, post, hp⟩ := foldl_str_split f l (A ++ f x) e h
        exact ⟨pre, post, by simpa [List.foldl] using hp⟩

/-- Looking up a key right after updating it yields the stored value. -/
theorem lookupEntry_updateEntry (l : List (Key × Nat × Histo)) (k : Key)
    (v : Nat × Histo) : lookupEntry (updateEntry l k v) k = some v := by
  induction l with
  | nil => simp [updateEntry, lookupEntry]
  | cons x rest ih =>
      by_cases h : x.1 = k
      · simp [updateEntry, lookupEntry, h]
      · simpa [updateEntry, lookupEntry, h] using ih

/-- Updating the same key twice keeps only the second value. -/
theorem updateEntry_updateEntry (l : List (Key × Nat × Histo)) (k : Key)
    (v w : Nat × Histo) :
    updateEntry (updateEntry l k v) k w = updateEntry l k w := by
  induction l with
  | nil => simp [updateEntry]
  | cons x rest ih =>
      by_cases h : x.1 = k
      · simp [updateEntry, h]
      · simp [updateEntry, h, ih]

/-- Folding wrap-around `u64` addition over a list computes the list's sum
modulo `2 ^ 64`. -/
theorem foldl_wrapAdd : ∀ (vs : List Nat) (s0 : Nat), s0 < 2 ^ 64 →
    vs.foldl (fun acc v => (acc + v) % 2 ^ 64) s0 = (s0 + vs.sum) % 2 ^ 64
  | [], s0, h => by simpa [Nat.mod_eq_of_lt h] using (Nat.mod_eq_of_lt h).symm
  | v :: vs, s0, h => by
      have hlt : (s0 + v) % 2 ^ 64 < 2 ^ 64 :=
        Nat.mod_lt _ (Nat.pow_pos (by norm_num))
      calc (v :: vs).foldl (fun acc v => (acc + v) % 2 ^ 64) s0
          = vs.foldl (fun acc v => (acc + v) % 2 ^ 64) ((s0 + v) % 2 ^ 64) := rfl
        _ = ((s0 + v) % 2 ^ 64 + vs.sum) % 2 ^ 64 := foldl_wrapAdd vs _ hlt
        _ = (s0 + (v :: vs).sum) % 2 ^ 64 := by
              rw [Nat.mod_add_mod]; simp [Nat.add_assoc]

/-- Recording several batches for one key accumulates the wrap-around sum
and concatenates the observations, starting from an existing entry. -/
theorem lookup_after_batches :
    ∀ (batches : List (List Nat)) (r : PrometheusRecorder) (k : Key)
      (s0 : Nat) (h0 : Histo),
      lookupEntry r.histos k = some (s0, h0) → s0 < 2 ^ 64 →
      lookupEntry ((batches.foldl (fun rr vs => rr.record_histogram k vs) r).histos) k
        = some ((s0 + batches.flatten.sum) % 2 ^ 64,
            Histo.mk (h0.values ++ batches.flatten))
  | [], r, k, s0, h0, hl, hs => by
      simp only [List.foldl, List.flatten_nil, List.sum_nil, Nat.add_zero,
        List.append_nil]
      rw [Nat.mod_eq_of_lt hs]
      exact hl
  | b :: batches, r, k, s0, h0, hl, hs => by
      have hstep : lookupEntry ((r.record_histogram k b).histos) k
          = some ((s0 + b.sum) % 2 ^ 64, Histo.mk (h0.values ++ b)) := by
        simp only [PrometheusRecorder.record_histogram, hl, Option.getD_some,
          lookupEntry_updateEntry]
        rw [foldl_wrapAdd b s0 hs]
      have ih := lookup_after_batches batches (r.record_histogram k b) k
        ((s0 + b.sum) % 2 ^ 64) (Histo.mk (h0.values ++ b)) hstep
        (Nat.mod_lt _ (Nat.pow_pos (by norm_num)))
      calc lookupEntry (((b :: batches).foldl (fun rr vs => rr.record_histogram k vs) r).histos) k
          = lookupEntry ((batches.foldl (fun rr vs => rr.record_histogram k vs)
              (r.record_histogram k b)).histos) k := rfl
        _ = some (((s0 + b.sum) % 2 ^ 64 + batches.flatten.sum) % 2 ^ 64,
              Histo.mk ((Histo.mk (h0.values ++ b)).values ++ batches.flatten)) := ih
        _ = some ((s0 + (b :: batches).flatten.sum) % 2 ^ 64,
              Histo.mk (h0.values ++ (b :: batches).flatten)) := by
              rw [Nat.mod_add_mod]
              simp [Nat.add_assoc, List.append_assoc]

/-! ## The claims -/

/-- C1: the claim as stated is false — `from_name_and_labels(name, [])`
stores the empty label vector as `Some([])`, which the derived key equality
distinguishes from the `None` stored by `from_name`; shown here at the
concrete name "x". -/
theorem c1_counterexample :
    ¬ (Key.from_name_and_labels "x" [] = Key.from_name "x") := by decide

/-- C1 (amended): for every name, `from_name_and_labels(name, [])` yields a
key whose labels component is `Some([])`, which is not equal to the key
built by `from_name(name)` (labels `None`); the two keys are nevertheless
mapped to identical parts by the renderer's `key_to_parts`, so they render
identically. -/
theorem c1_empty_labels_not_normalized (n : String) :
    Key.from_name_and_labels n [] ≠ Key.from_name n
      ∧ (Key.from_name_and_labels n []).labels = some []
      ∧ (Key.from_name n).labels = none
      ∧ key_to_parts (Key.from_name_and_labels n []) = key_to_parts (Key.from_name n) := by
  refine ⟨fun h => ?_, rfl, rfl, rfl⟩
  have := congrArg Key.labels h
  simp [Key.from_name_and_labels, Key.from_name] at this

/-- C1 witness: the amended statement holds at the concrete name "x". -/
theorem c1_empty_labels_not_normalized_witness :
    Key.from_name_and_labels "x" [] ≠ Key.from_name "x"
      ∧ (Key.from_name_and_labels "x" []).labels = some []
      ∧ (Key.from_name "x").labels = none
      ∧ key_to_parts (Key.from_name_and_labels "x" []) = key_to_parts (Key.from_name "x") :=
  c1_empty_labels_not_normalized "x"

/-- C3: recording `[a, b, c]` in one `record_histogram` call leaves the
recorder in exactly the same state — hence the same running sum, the same
count, and the same `value_at_quantile` results — as three separate calls
with `[a]`, `[b]`, `[c]` for the same key. -/
theorem c3_merge_equivalence (r : PrometheusRecorder) (k : Key) (a b c : Nat) :
    r.record_histogram k [a, b, c]
      = ((r.record_histogram k [a]).record_histogram k [b]).record_histogram k [c] := by
  simp [PrometheusRecorder.record_histogram, lookupEntry_updateEntry,
    updateEntry_updateEntry, List.append_assoc]

/-- C6: the claim is right and the code has a slip — the no-labels branch of
`Display for Key` writes `"Key({}"` with no closing parenthesis, so
`Key::from_name("foo")` displays as `"Key(foo"`, not the claimed
`"Key(foo)"`; the labelled branch does produce the claimed
`Key(name, [k1 = v1, k2 = v2])` shape. -/
theorem c6_display_missing_paren :
    Key.display (Key.from_name "foo") = "Key(foo"
      ∧ Key.display (Key.from_name "foo") ≠ "Key(foo)"
      ∧ Key.display (Key.from_name_and_labels "foo"
            [Label.from_parts "a" "b", Label.from_parts "c" "d"])
          = "Key(foo, [a = b, c = d])" :=
  ⟨by decide, by decide, by decide⟩

/-- C7: `map_name(f)` returns a key whose name is `f` of the old name and
whose labels are exactly the old labels; being a pure Lean function of the
key, it has no other effect. -/
theorem c7_map_name (k : Key) (f : String → String) :
    (k.map_name f).name = f k.name ∧ (k.map_name f).labels = k.labels :=
  ⟨rfl, rfl⟩

/-- C8: construction never fails on the clock — a failed clock lookup makes
the header carry timestamp 0, a successful one carries the epoch seconds,
and `with_quantiles` always succeeds, writing exactly that header into the
output buffer. -/
theorem c8_clock_fallback :
    (get_prom_expo_header (Except.error ())
        = "# metrics snapshot (ts=0) (prometheus exposition format)")
      ∧ (∀ secs : Nat, get_prom_expo_header (Except.ok secs)
          = "# metrics snapshot (ts=" ++ toString secs
              ++ ") (prometheus exposition format)")
      ∧ (∀ (raw : List (Int × Nat)) (now : Except Unit Nat),
          (PrometheusRecorder.with_quantiles raw now).output
            = get_prom_expo_header now) :=
  ⟨by decide, fun _ => rfl, fun _ _ => rfl⟩

/-- C2: every histogram entry held at finalization contributes its summary
block to the output; each configured quantile yields one line whose label
block is the key's labels with the quantile label appended last; the block
is the TYPE line, the quantile lines, then `_sum` and `_count`; and the
concrete scenario `record_histogram(test, [10, 20, 30, 40])` with quantiles
[0.0, 1.0] yields `quantile="0"` value 10, `quantile="1"` value 40,
`_sum` 100 and `_count` 4. -/
theorem c2_histogram_finalization :
    (∀ (r : PrometheusRecorder) (e : Key × Nat × Histo), e ∈ r.histos →
        ∃ pre post, r.into_string = pre ++ renderHistoEntry r.quantiles e ++ post)
      ∧ (∀ (qs : List Quantile) (k : Key) (s : Nat) (h : Histo) (q : Quantile),
          q ∈ qs →
          ∃ pre post, renderHistoEntry qs (k, s, h)
            = pre ++ (render_labeled_name (key_to_parts k).1
                  ((key_to_parts k).2 ++ ["quantile=\"" ++ q.display ++ "\""])
                ++ " " ++ toString (h.value_at_quantile q) ++ "\n") ++ post)
      ∧ (∀ (qs : List Quantile) (k : Key) (s : Nat) (h : Histo),
          ∃ mid, renderHistoEntry qs (k, s, h)
            = "\n# TYPE " ++ (key_to_parts k).1 ++ " summary\n" ++ mid
                ++ render_labeled_name ((key_to_parts k).1 ++ "_sum")
                    (key_to_parts k).2 ++ " " ++ toString s ++ "\n"
                ++ render_labeled_name ((key_to_parts k).1 ++ "_count")
                    (key_to_parts k).2 ++ " " ++ toString h.len ++ "\n")
      ∧ outputLines ((PrometheusRecorder.with_quantiles [(0, 1), (1, 1)]
            (Except.error ())).record_histogram (Key.from_name "test")
            [10, 20, 30, 40]).into_string
          = ["# metrics snapshot (ts=0) (prometheus exposition format)",
             "# TYPE test summary", "test\x7bquantile=\"0\"\x7d 10",
             "test\x7bquantile=\"1\"\x7d 40", "test_sum 100", "test_count 4",
             ""] := by
  refine ⟨?_, ?_, ?_, by decide⟩
  · intro r e he
    simpa [PrometheusRecorder.into_string] using
      foldl_str_split (renderHistoEntry r.quantiles) r.histos r.output e he
  · intro qs k s h q hq
    obtain ⟨pre0, post0, h0⟩ :=
      foldl_str_split (quantLine (key_to_parts k).1 (key_to_parts k).2 h) qs "" q hq
    refine ⟨"\n# TYPE " ++ (key_to_parts k).1 ++ " summary\n" ++ pre0,
      post0
        ++ (render_labeled_name ((key_to_parts k).1 ++ "_sum") (key_to_parts k).2
            ++ " " ++ toString s ++ "\n")
        ++ (render_labeled_name ((key_to_parts k).1 ++ "_count") (key_to_parts k).2
            ++ " " ++ toString h.len ++ "\n"), ?_⟩
    have hre : renderHistoEntry qs (k, s, h)
        = "\n# TYPE " ++ (key_to_parts k).1 ++ " summary\n"
          ++ List.foldl (fun o q =>
              o ++ quantLine (key_to_parts k).1 (key_to_parts k).2 h q) "" qs
          ++ render_labeled_name ((key_to_parts k).1 ++ "_sum") (key_to_parts k).2
          ++ " " ++ toString s ++ "\n"
          ++ render_labeled_name ((key_to_parts k).1 ++ "_count") (key_to_parts k).2
          ++ " " ++ toString h.len ++ "\n" := rfl
    rw [hre, h0]
    simp [quantLine, String.append_assoc]
  · intro qs k s h
    exact ⟨qs.foldl (fun out q =>
        out ++ quantLine (key_to_parts k).1 (key_to_parts k).2 h q) "",
      by simp [renderHistoEntry, String.append_assoc]⟩

/-- C2 witness: the entry-to-block and quantile-line parts of C2 applied to
a concrete renderer holding one entry and one quantile. -/
theorem c2_histogram_finalization_witness :
    (∃ pre post,
        (PrometheusRecorder.mk [Quantile.mk 0 1]
            [(Key.from_name "test", 100, Histo.mk [10, 20, 30, 40])] "H").into_string
          = pre ++ renderHistoEntry [Quantile.mk 0 1]
              (Key.from_name "test", 100, Histo.mk [10, 20, 30, 40]) ++ post)
      ∧ (∃ pre post,
          renderHistoEntry [Quantile.mk 0 1]
              (Key.from_name "test", 100, Histo.mk [10, 20, 30, 40])
            = pre ++ (render_labeled_name (key_to_parts (Key.from_name "test")).1
                  ((key_to_parts (Key.from_name "test")).2
                    ++ ["quantile=\"" ++ (Quantile.mk 0 1).display ++ "\""])
                ++ " "
                ++ toString ((Histo.mk [10, 20, 30, 40]).value_at_quantile
                      (Quantile.mk 0 1)) ++ "\n") ++ post) := by
  constructor
  · exact c2_histogram_finalization.1 _ _ (by decide)
  · exact c2_histogram_finalization.2.1 [Quantile.mk 0 1] (Key.from_name "test")
      100 (Histo.mk [10, 20, 30, 40]) (Quantile.mk 0 1) (by decide)

/-- C4: `record_counter` (resp. `record_gauge`) appends exactly its TYPE
declaration line plus sample line to the text buffer, touching nothing else;
repeated calls append repeated blocks with no de-duplication; and in the
concrete scenario the finalized output contains the line `requests 42`
immediately preceded by `# TYPE requests counter`. -/
theorem c4_immediate_append :
    (∀ (r : PrometheusRecorder) (k : Key) (v : Nat),
        (r.record_counter k v).output = r.output ++ counterBlock k v
          ∧ (r.record_counter k v).histos = r.histos
          ∧ (r.record_counter k v).quantiles = r.quantiles)
      ∧ (∀ (r : PrometheusRecorder) (k : Key) (v : Int),
          (r.record_gauge k v).output = r.output ++ gaugeBlock k v
            ∧ (r.record_gauge k v).histos = r.histos
            ∧ (r.record_gauge k v).quantiles = r.quantiles)
      ∧ (∀ (r : PrometheusRecorder) (k : Key) (v : Nat),
          ((r.record_counter k v).record_counter k v).output
            = r.output ++ counterBlock k v ++ counterBlock k v)
      ∧ outputLines ((PrometheusRecorder.new (Except.error ())).record_counter
            (Key.from_name "requests") 42).into_string
          = ["# metrics snapshot (ts=0) (prometheus exposition format)",
             "# TYPE requests counter", "requests 42", ""] := by
  have hc : ∀ (r : PrometheusRecorder) (k : Key) (v : Nat),
      (r.record_counter k v).output = r.output ++ counterBlock k v := by
    intro r k v
    simp [PrometheusRecorder.record_counter, counterBlock, String.append_assoc]
  refine ⟨fun r k v => ⟨hc r k v, rfl, rfl⟩, ?_, ?_, by decide⟩
  · intro r k v
    refine ⟨?_, rfl, rfl⟩
    simp [PrometheusRecorder.record_gauge, gaugeBlock, String.append_assoc]
  · intro r k v
    rw [hc, hc, String.append_assoc]

/-- C5: the rendered metric name is the key's name with every dot replaced
by an underscore (so it never contains a dot); the label block is omitted
entirely when the key has no labels and otherwise renders the `k="v"` pairs
comma-joined in original order inside braces; and the key named
"service.latency" renders as `service_latency` in every emitted line. -/
theorem c5_name_escaping :
    (∀ k : Key, ((key_to_parts k).1).data = k.name.data.map escDot
        ∧ ('.' ∈ ((key_to_parts k).1).data → False))
      ∧ (∀ k : Key, k.labels = none ∨ k.labels = some [] →
          render_labeled_name (key_to_parts k).1 (key_to_parts k).2
            = (key_to_parts k).1)
      ∧ (∀ (k : Key) (ls : List Label), k.labels = some ls →
          (key_to_parts k).2
            = ls.map (fun l => l.key ++ "=\"" ++ l.value ++ "\""))
      ∧ (∀ (name l0 : String) (ls : List String),
          render_labeled_name name (l0 :: ls)
            = name ++ "\x7b" ++ String.intercalate "," (l0 :: ls) ++ "\x7d")
      ∧ outputLines (((PrometheusRecorder.new (Except.error ())).record_counter
            (Key.from_name "service.latency") 7).record_histogram
            (Key.from_name "service.latency") [5]).into_string
          = ["# metrics snapshot (ts=0) (prometheus exposition format)",
             "# TYPE service_latency counter", "service_latency 7", "",
             "# TYPE service_latency summary",
             "service_latency\x7bquantile=\"0\"\x7d 5",
             "service_latency\x7bquantile=\"0.5\"\x7d 5",
             "service_latency\x7bquantile=\"0.9\"\x7d 5",
             "service_latency\x7bquantile=\"0.95\"\x7d 5",
             "service_latency\x7bquantile=\"0.99\"\x7d 5",
             "service_latency\x7bquantile=\"0.999\"\x7d 5",
             "service_latency\x7bquantile=\"1\"\x7d 5",
             "service_latency_sum 5", "service_latency_count 1", ""] := by
  refine ⟨?_, ?_, ?_, ?_, by decide⟩
  · intro k
    refine ⟨rfl, fun hmem => ?_⟩
    rcases List.mem_map.1 hmem with ⟨a, _, hae⟩
    by_cases hc : a = '.'
    · simp [escDot, hc] at hae
    · rw [escDot, if_neg hc] at hae
      exact hc hae
  · intro k hk
    rcases hk with h | h <;>
      simp [key_to_parts, Key.into_parts, render_labeled_name, h]
  · intro k ls h
    simp [key_to_parts, Key.into_parts, Label.into_parts, h]
  · intro name l0 ls
    simp [render_labeled_name]

/-- C5 witness: the labels-absent and labels-present parts of C5 applied to
concrete keys. -/
theorem c5_name_escaping_witness :
    render_labeled_name (key_to_parts (Key.from_name "a.b")).1
        (key_to_parts (Key.from_name "a.b")).2
      = (key_to_parts (Key.from_name "a.b")).1
      ∧ (key_to_parts (Key.from_name_and_labels "temp"
            [Label.from_parts "room" "kitchen"])).2
        = [Label.from_parts "room" "kitchen"].map
            (fun l => l.key ++ "=\"" ++ l.value ++ "\"") := by
  constructor
  · exact c5_name_escaping.2.1 (Key.from_name "a.b") (Or.inl rfl)
  · exact c5_name_escaping.2.2.1
      (Key.from_name_and_labels "temp" [Label.from_parts "room" "kitchen"]) _ rfl

/-- C9: `record_histogram(k, [])` with an empty batch still creates the
entry for `k` — running sum 0 and an empty sketch, so count 0 — when none
exists, and the finalized output of that renderer contains the full summary
block for `k` with one line per configured quantile, `_sum` 0 and
`_count` 0. -/
theorem c9_empty_batch_creates_entry :
    (∀ (r : PrometheusRecorder) (k : Key), lookupEntry r.histos k = none →
        lookupEntry ((r.record_histogram k []).histos) k
            = some (0, Histo.mk [])
          ∧ (Histo.mk ([] : List Nat)).len = 0)
      ∧ outputLines ((PrometheusRecorder.with_quantiles [(0, 1), (1, 1)]
            (Except.error ())).record_histogram (Key.from_name "empty")
            []).into_string
          = ["# metrics snapshot (ts=0) (prometheus exposition format)",
             "# TYPE empty summary", "empty\x7bquantile=\"0\"\x7d 0",
             "empty\x7bquantile=\"1\"\x7d 0", "empty_sum 0", "empty_count 0",
             ""] := by
  refine ⟨?_, by decide⟩
  intro r k h
  refine ⟨?_, rfl⟩
  simpa [PrometheusRecorder.record_histogram, h] using
    lookupEntry_updateEntry r.histos k (0, Histo.mk [])

/-- C9 witness: C9's entry-creation part applied to a fresh renderer. -/
theorem c9_empty_batch_creates_entry_witness :
    lookupEntry (((PrometheusRecorder.with_quantiles [(0, 1), (1, 1)]
          (Except.error ())).record_histogram (Key.from_name "empty") []).histos)
        (Key.from_name "empty")
        = some (0, Histo.mk [])
      ∧ (Histo.mk ([] : List Nat)).len = 0 :=
  c9_empty_batch_creates_entry.1 _ _ rfl

/-- C10: the running sum held for a key — and printed on its `_sum` line —
is the sum of all values ever recorded for that key reduced modulo `2 ^ 64`
(unsigned 64-bit wrap-around), as witnessed concretely by recording
`[2^64 - 1, 1]` which leaves sum 0. -/
theorem c10_sum_wraps_mod_2_64 :
    (∀ (r : PrometheusRecorder) (k : Key) (b0 : List Nat)
        (batches : List (List Nat)),
        lookupEntry r.histos k = none →
        lookupEntry (((b0 :: batches).foldl
              (fun rr vs => rr.record_histogram k vs) r).histos) k
          = some ((b0 :: batches).flatten.sum % 2 ^ 64,
              Histo.mk (b0 :: batches).flatten))
      ∧ (∀ (qs : List Quantile) (k : Key) (s : Nat) (h : Histo),
          ∃ pre post, renderHistoEntry qs (k, s, h)
            = pre ++ (render_labeled_name ((key_to_parts k).1 ++ "_sum")
                  (key_to_parts k).2 ++ " " ++ toString s ++ "\n") ++ post)
      ∧ lookupEntry ((PrometheusRecorder.with_quantiles []
            (Except.error ())).record_histogram (Key.from_name "w")
            [2 ^ 64 - 1, 1]).histos (Key.from_name "w")
          = some (0, Histo.mk [2 ^ 64 - 1, 1]) := by
  refine ⟨?_, ?_, by decide⟩
  · intro r k b0 batches hnone
    have h1 : lookupEntry ((r.record_histogram k b0).histos) k
        = some (b0.sum % 2 ^ 64, Histo.mk b0) := by
      simp only [PrometheusRecorder.record_histogram, hnone, Option.getD_none,
        lookupEntry_updateEntry]
      rw [foldl_wrapAdd b0 0 (Nat.pow_pos (by norm_num))]
      simp
    have h2 := lookup_after_batches batches (r.record_histogram k b0) k
      (b0.sum % 2 ^ 64) (Histo.mk b0) h1
      (Nat.mod_lt _ (Nat.pow_pos (by norm_num)))
    calc lookupEntry (((b0 :: batches).foldl
            (fun rr vs => rr.record_histogram k vs) r).histos) k
        = lookupEntry ((batches.foldl (fun rr vs => rr.record_histogram k vs)
            (r.record_histogram k b0)).histos) k := rfl
      _ = some ((b0.sum % 2 ^ 64 + batches.flatten.sum) % 2 ^ 64,
            Histo.mk ((Histo.mk b0).values ++ batches.flatten)) := h2
      _ = some ((b0 :: batches).flatten.sum % 2 ^ 64,
            Histo.mk (b0 :: batches).flatten) := by
          rw [Nat.mod_add_mod]
          simp [List.sum_append]
  · intro qs k s h
    refine ⟨"\n# TYPE " ++ (key_to_parts k).1 ++ " summary\n"
        ++ qs.foldl (fun out q =>
            out ++ quantLine (key_to_parts k).1 (key_to_parts k).2 h q) "",
      render_labeled_name ((key_to_parts k).1 ++ "_count") (key_to_parts k).2
        ++ " " ++ toString h.len ++ "\n", ?_⟩
    simp [renderHistoEntry, String.append_assoc]

/-- C10 witness: the wrap-around accumulation applied to a fresh renderer
and the concrete batches [[5], [7]]. -/
theorem c10_sum_wraps_mod_2_64_witness :
    lookupEntry ((([[5], [7]] : List (List Nat)).foldl
          (fun rr vs => rr.record_histogram (Key.from_name "k") vs)
          (PrometheusRecorder.with_quantiles [] (Except.error ()))).histos)
        (Key.from_name "k")
      = some (([[5], [7]] : List (List Nat)).flatten.sum % 2 ^ 64,
          Histo.mk ([[5], [7]] : List (List Nat)).flatten) :=
  c10_sum_wraps_mod_2_64.1 _ _ [5] [[7]] rfl

end MetricsSpec
